import Mathlib

/-!
Shallow embedding of src/stream.py (StreamFuzz): a content-discovery probe
that joins a base URL with candidate paths, issues HTTP requests under a
semaphore-bounded dispatcher, collects discovered endpoints in a set and
writes them, sorted, to an output file.

HTTP itself is external: the network is modelled by an oracle mapping each
(path, method) pair to the outcome of its single request (a completed
response with a status code, or a raised transport exception), exactly the
two ways the try-block in StreamFuzz._fetch can go.  The Python set
self.found_endpoints is modelled as a duplicate-free list with
List.insert; log output is a list of log lines; the output file is an
Option String (none or the full file content).
-/

namespace StreamFuzzModel

/-- DEFAULT_WORDLIST (stream.py line 9). -/
def DEFAULT_WORDLIST : String := "Wordlist/pro_100.txt"

/-- DEFAULT_OUTPUT (stream.py line 10). -/
def DEFAULT_OUTPUT : String := "results.txt"

/-- VALID_STATUS_CODES = list(range(200, 300)) + [401, 403] (stream.py
line 13).  Python ints are modelled as Int. -/
def VALID_STATUS_CODES : List Int :=
  (List.range' 200 100).map (fun n => (n : Int)) ++ [401, 403]

/-- DEFAULT_METHODS = ['HEAD'] (stream.py line 14). -/
def DEFAULT_METHODS : List String := ["HEAD"]

/-- MAX_CONCURRENT_REQUESTS = 100 (stream.py line 15). -/
def MAX_CONCURRENT_REQUESTS : Nat := 100

/-- COMMON_PATHS (stream.py line 17). -/
def COMMON_PATHS : List String := ["/admin", "/login", "/dashboard", "/user", "/api"]

/-- Python s.rstrip for the single character slash: drop every trailing slash. -/
def rstripSlash (s : String) : String :=
  ⟨(s.data.reverse.dropWhile (fun c => c == '/')).reverse⟩

/-- Python s.lstrip for the single character slash: drop every leading slash. -/
def lstripSlash (s : String) : String :=
  ⟨s.data.dropWhile (fun c => c == '/')⟩

/-- Python s.strip() with no argument: drop leading and trailing whitespace. -/
def pyStrip (s : String) : String :=
  ⟨((s.data.dropWhile Char.isWhitespace).reverse.dropWhile
      Char.isWhitespace).reverse⟩

/-- Lexicographic comparison of character sequences by code point, the
order Python uses to compare and sort strings. -/
def lexLe : List Char → List Char → Bool
  | [], _ => true
  | _ :: _, [] => false
  | a :: as, b :: bs =>
      if a.toNat = b.toNat then lexLe as bs else decide (a.toNat < b.toNat)

/-- Python string ≤ (lexicographic by code point). -/
def strle (s t : String) : Prop := lexLe s.data t.data = true

instance : DecidableRel strle := fun s t =>
  inferInstanceAs (Decidable (lexLe s.data t.data = true))

/-- Accumulate the value of a decimal digit string; none on a non-digit. -/
def digitsValAux : List Char → Nat → Option Nat
  | [], acc => some acc
  | c :: cs, acc =>
      if c.isDigit then digitsValAux cs (acc * 10 + (c.toNat - 48)) else none

/-- Value of a non-empty decimal digit string, none otherwise. -/
def digitsVal (l : List Char) : Option Nat :=
  if l = [] then none else digitsValAux l 0

/-- Python int(s): strip whitespace, optional sign, decimal digits;
ValueError (none) on anything else. -/
def pyInt? (s : String) : Option Int :=
  match (pyStrip s).data with
  | '-' :: ds => (digitsVal ds).map (fun n => -(n : Int))
  | '+' :: ds => (digitsVal ds).map (fun n => (n : Int))
  | ds => (digitsVal ds).map (fun n => (n : Int))

/-- Helper for splitComma: split the remaining characters at commas, with
the characters of the current field accumulated in reverse. -/
def splitCommaAux : List Char → List Char → List String
  | [], acc => [⟨acc.reverse⟩]
  | c :: cs, acc =>
      if c = ',' then ⟨acc.reverse⟩ :: splitCommaAux cs []
      else splitCommaAux cs (c :: acc)

/-- Python s.split(','). -/
def splitComma (s : String) : List String := splitCommaAux s.data []

/-- One line of logger output (ANSI colour decoration omitted). -/
inductive LogLine where
  | info (msg : String)
  | warning (msg : String)
  | error (msg : String)
deriving DecidableEq, Repr

/-- Outcome of the single HTTP request a fetch performs: either the awaited
response completed with a numeric status code, or some exception was raised
(connection refused, timeout, DNS failure, ...). -/
inductive FetchResult where
  | response (status : Int)
  | error (msg : String)
deriving DecidableEq, Repr

/-- The state of a StreamFuzz instance (stream.py lines 36-45).  __init__
strips trailing slashes from base_url and starts found_endpoints empty; see
StreamFuzz.init below.  The aiohttp session is subsumed by the oracle. -/
structure StreamFuzz where
  base_url : String
  wordlist : String
  output_file : String
  headers : List (String × String)
  cookies : List (String × String)
  methods : List String
  valid_status_codes : List Int
  found_endpoints : List String
deriving DecidableEq, Repr

/-- StreamFuzz.__init__ (stream.py lines 36-45): base_url.rstrip('/'),
found_endpoints = set(). -/
def StreamFuzz.init (base_url wordlist output_file : String)
    (headers cookies : List (String × String)) (methods : List String)
    (valid_status_codes : List Int) : StreamFuzz :=
  { base_url := rstripSlash base_url
    wordlist := wordlist
    output_file := output_file
    headers := headers
    cookies := cookies
    methods := methods
    valid_status_codes := valid_status_codes
    found_endpoints := [] }

/-- What one call to StreamFuzz._fetch produces: the updated instance state,
the Python return value (the status code, or None after an exception), the
log lines written, and the (method, url) request that was performed. -/
structure FetchOut where
  fuzz : StreamFuzz
  status : Option Int
  log : List LogLine
  request : String × String
deriving DecidableEq, Repr

/-- StreamFuzz._fetch (stream.py lines 47-57): build the url, perform one
request; on a completed response add the url to found_endpoints when the
status is in valid_status_codes (logging the discovery) and return the
status; on an exception log the error and return None. -/
def StreamFuzz.fetch (fz : StreamFuzz) (path method : String)
    (outcome : FetchResult) : FetchOut :=
  let url := fz.base_url ++ "/" ++ lstripSlash path
  match outcome with
  | .response status =>
      if status ∈ fz.valid_status_codes then
        ⟨{ fz with found_endpoints := fz.found_endpoints.insert url },
          some status,
          [LogLine.info ("[" ++ toString status ++ "] " ++ url)], (method, url)⟩
      else
        ⟨fz, some status, [], (method, url)⟩
  | .error e =>
      ⟨fz, none, [LogLine.error ("Error fetching " ++ url ++ ": " ++ e)],
        (method, url)⟩

/-- The url _fetch requests for a path (stream.py line 49). -/
def StreamFuzz.url (fz : StreamFuzz) (path : String) : String :=
  fz.base_url ++ "/" ++ lstripSlash path

/-- The work list the dispatcher builds (stream.py lines 68-70): one task
per (path, method) pair, paths outer, methods inner. -/
def worklist (paths methods : List String) : List (String × String) :=
  paths.flatMap (fun p => methods.map (fun m => (p, m)))

/-- The aggregate outcome of a batch: final instance state, concatenated
log, and the sequence of requests actually performed. -/
structure BatchOut where
  fuzz : StreamFuzz
  log : List LogLine
  requests : List (String × String)
deriving DecidableEq, Repr

/-- Run one work item through _fetch, accumulating log and request trace. -/
def processStep (oracle : String → String → FetchResult) (acc : BatchOut)
    (item : String × String) : BatchOut :=
  let out := acc.fuzz.fetch item.1 item.2 (oracle item.1 item.2)
  ⟨out.fuzz, acc.log ++ out.log, acc.requests ++ [out.request]⟩

/-- StreamFuzz._process_paths (stream.py lines 59-71): schedule one
_bound_fetch per (path, method) pair of the Cartesian product and gather
them all.  Under asyncio's cooperative scheduling each task's state update
(the membership test plus set insert in _fetch) runs without interleaving,
so the effect on the shared state is the sequential composition of the
per-item updates in some order; we take work-list order.  gather returns
only after every task has completed, so the returned BatchOut has every
item processed.  The in-flight bound of the semaphore is modelled
separately by DispatchStep below. -/
def StreamFuzz.processPaths (fz : StreamFuzz)
    (oracle : String → String → FetchResult) (paths : List String) : BatchOut :=
  (worklist paths fz.methods).foldl (processStep oracle) ⟨fz, [], []⟩

/-- What makes a work item put u into the discovered set: its single
request completed with an accepted status and u is the item's url.  An
item whose request raises discovers nothing. -/
def itemDiscovers (fz : StreamFuzz) (oracle : String → String → FetchResult)
    (it : String × String) (u : String) : Prop :=
  match oracle it.1 it.2 with
  | .response s => s ∈ fz.valid_status_codes ∧ u = fz.url it.1
  | .error _ => False

/-- StreamFuzz._load_wordlist (stream.py lines 73-81) generalised over the
built-in list: fileLines is none when the wordlist file does not exist,
some lines otherwise; each line is stripped, blank results dropped, the
built-ins appended, and the result deduplicated (list(set(paths))). -/
def loadWordlistWith (fileLines : Option (List String))
    (builtins : List String) : List String :=
  let paths :=
    match fileLines with
    | some lines => (lines.map (fun l => pyStrip l)).filter (fun l => l ≠ "")
    | none => []
  (paths ++ builtins).dedup

/-- StreamFuzz._load_wordlist with the program's COMMON_PATHS built-ins. -/
def loadWordlist (fileLines : Option (List String)) : List String :=
  loadWordlistWith fileLines COMMON_PATHS

/-- The candidate set exactly as the spec sentence words it, for comparison
with loadWordlistWith: the file's non-blank lines unioned with the
built-in list, deduplicated. -/
def specCandidateSet (fileLines : List String) (builtins : List String) :
    Finset String :=
  (fileLines.filter (fun l => l ≠ "")).toFinset ∪ builtins.toFinset

/-- Python sorted() on strings: a permutation of the input, sorted in the
lexicographic code-point order strle. -/
def sortStrings (l : List String) : List String := List.insertionSort strle l

/-- StreamFuzz._save_results (stream.py lines 92-100): given the discovered
set (a duplicate-free list) and the prior output-file content, either warn
and leave the file alone (empty set), or overwrite the file with one
endpoint per line, sorted, each line newline-terminated. -/
def saveResults (found : List String) (prior : Option String) :
    Option String × List LogLine :=
  if found = [] then
    (prior, [LogLine.warning "No endpoints discovered."])
  else
    (some (String.join ((sortStrings found).map (fun e => e ++ "\n"))),
      [LogLine.info "Results saved."])

/-! Semaphore-bounded dispatch, modelled as a transition system.  Each task
created in _process_paths (one per work item) runs
_bound_fetch: it first acquires a slot of the asyncio.Semaphore built with
MAX_CONCURRENT_REQUESTS (suspending while no slot is free), then performs
its request, then releases the slot.  A task is therefore in one of three
phases; "running" is exactly the span of the async-with block, i.e. the
span during which its request is in flight. -/

/-- The phase of one scheduled _bound_fetch task. -/
inductive TaskPhase where
  | waiting
  | running
  | done
deriving DecidableEq, Repr

/-- Number of tasks currently inside the semaphore (requests in flight). -/
def runningCount : List TaskPhase → Nat
  | [] => 0
  | TaskPhase.running :: ts => runningCount ts + 1
  | _ :: ts => runningCount ts

/-- One scheduler transition of the batch, for semaphore capacity N: a
waiting task may enter the async-with block only when fewer than N tasks
hold a slot (asyncio.Semaphore admission), and a running task may finish
and release its slot.  Tasks are identified by position. -/
inductive DispatchStep (N : Nat) : List TaskPhase → List TaskPhase → Prop where
  | acquire (l r : List TaskPhase)
      (h : runningCount (l ++ TaskPhase.waiting :: r) < N) :
      DispatchStep N (l ++ TaskPhase.waiting :: r) (l ++ TaskPhase.running :: r)
  | release (l r : List TaskPhase) :
      DispatchStep N (l ++ TaskPhase.running :: r) (l ++ TaskPhase.done :: r)

/-- States of an M-item batch reachable from the start (all tasks waiting)
under semaphore capacity N. -/
def DispatchReachable (N M : Nat) (ts : List TaskPhase) : Prop :=
  Relation.ReflTransGen (DispatchStep N) (List.replicate M TaskPhase.waiting) ts

/-! The interactive menu (stream.py lines 117-182).  json.loads is an
external library call, modelled as an injected parser that either returns
the decoded key-value object or fails as the exception it raises; int() on
a non-integer string likewise raises, modelled by String.toInt? returning
none.  A raised exception propagates out of the while-loop, so a menu
iteration either yields the next configuration state (plus the fuzzer
instance to run, when one was started) or dies with the error. -/

/-- The configuration variables interactive_menu holds (lines 119-125). -/
structure MenuConfig where
  base_url : Option String
  wordlist : String
  output_file : String
  headers : List (String × String)
  cookies : List (String × String)
  methods : List String
  valid_status_codes : List Int
deriving DecidableEq, Repr

/-- The initial configuration (lines 119-125). -/
def initialMenuConfig : MenuConfig :=
  { base_url := none
    wordlist := DEFAULT_WORDLIST
    output_file := DEFAULT_OUTPUT
    headers := []
    cookies := []
    methods := DEFAULT_METHODS
    valid_status_codes := VALID_STATUS_CODES }

/-- The raw operator answers to the choice-2 prompts (lines 149-163). -/
structure ConfigInputs where
  base_url : String
  wordlist : String
  output_file : String
  headers_input : String
  cookies_input : String
  methods_input : String
  status_codes_input : String
deriving DecidableEq, Repr

/-- list(map(int, input.split(','))) (line 163): every comma-separated
field must parse as an integer, otherwise int() raises ValueError. -/
def parseStatusCodes (input : String) : Option (List Int) :=
  (splitComma input).mapM pyInt?

/-- The choice-2 branch of interactive_menu (lines 147-164): each setting
falls back to its prior value on blank input; headers and cookies go
through json.loads (the injected parseJson); status codes through int().
A parse failure is the raised exception. -/
def configStep (parseJson : String → Except String (List (String × String)))
    (prior : MenuConfig) (inp : ConfigInputs) : Except String MenuConfig := do
  let base_url := if pyStrip inp.base_url = "" then prior.base_url
    else some (pyStrip inp.base_url)
  let wordlist := if pyStrip inp.wordlist = "" then prior.wordlist
    else pyStrip inp.wordlist
  let output_file := if pyStrip inp.output_file = "" then prior.output_file
    else pyStrip inp.output_file
  let headers ← if pyStrip inp.headers_input = "" then pure prior.headers
    else parseJson (pyStrip inp.headers_input)
  let cookies ← if pyStrip inp.cookies_input = "" then pure prior.cookies
    else parseJson (pyStrip inp.cookies_input)
  let methods := if pyStrip inp.methods_input = "" then prior.methods
    else splitComma (pyStrip inp.methods_input)
  let codes ← if pyStrip inp.status_codes_input = "" then
      pure prior.valid_status_codes
    else
      match parseStatusCodes (pyStrip inp.status_codes_input) with
      | some cs => pure cs
      | none => Except.error "ValueError: invalid literal for int"
  pure
    { base_url := base_url
      wordlist := wordlist
      output_file := output_file
      headers := headers
      cookies := cookies
      methods := methods
      valid_status_codes := codes }

/-- One iteration of the interactive_menu loop (lines 127-182): choice 1
starts a run only when a target is set (otherwise it reports and loops),
choice 2 reconfigures (a parse failure propagates and kills the loop),
choices 3, 4 and anything else change nothing.  The Option StreamFuzz
component is the fuzzer instance dispatched this iteration, if any. -/
def menuStep (parseJson : String → Except String (List (String × String)))
    (cfg : MenuConfig) (choice : String) (inp : ConfigInputs) :
    Except String (MenuConfig × Option StreamFuzz) :=
  if choice = "1" then
    match cfg.base_url with
    | none => Except.ok (cfg, none)
    | some url =>
        Except.ok (cfg, some (StreamFuzz.init url cfg.wordlist cfg.output_file
          cfg.headers cfg.cookies cfg.methods cfg.valid_status_codes))
  else if choice = "2" then
    (configStep parseJson cfg inp).map (fun c => (c, none))
  else
    Except.ok (cfg, none)

/-- A concrete instance state used to instantiate theorems that carry
hypotheses: target http://t, default settings, one already-discovered
endpoint. -/
def sampleFuzz : StreamFuzz :=
  { base_url := "http://t"
    wordlist := DEFAULT_WORDLIST
    output_file := DEFAULT_OUTPUT
    headers := []
    cookies := []
    methods := ["HEAD"]
    valid_status_codes := VALID_STATUS_CODES
    found_endpoints := ["http://t/a"] }

/-! Helper lemmas. -/

theorem lexLe_total : ∀ as bs : List Char,
    lexLe as bs = true ∨ lexLe bs as = true := by
  intro as
  induction as with
  | nil => intro bs; left; rfl
  | cons a as ih =>
    intro bs
    cases bs with
    | nil => right; rfl
    | cons b bs =>
      by_cases h : a.toNat = b.toNat
      · rcases ih bs with h1 | h1
        · left; simp [lexLe, h, h1]
        · right; simp [lexLe, h.symm, h1]
      · rcases Nat.lt_or_ge a.toNat b.toNat with hlt | hge
        · left; simp [lexLe, h, hlt]
        · have hne : b.toNat ≠ a.toNat := fun he => h he.symm
          have hlt : b.toNat < a.toNat := Nat.lt_of_le_of_ne hge hne
          right; simp [lexLe, hne, hlt]

theorem lexLe_trans : ∀ as bs cs : List Char,
    lexLe as bs = true → lexLe bs cs = true → lexLe as cs = true := by
  intro as
  induction as with
  | nil => intro bs cs _ _; rfl
  | cons a as ih =>
    intro bs cs h1 h2
    cases bs with
    | nil => simp [lexLe] at h1
    | cons b bs =>
      cases cs with
      | nil => simp [lexLe] at h2
      | cons c cs =>
        simp only [lexLe] at h1 h2 ⊢
        by_cases hab : a.toNat = b.toNat
        · by_cases hbc : b.toNat = c.toNat
          · rw [if_pos hab] at h1
            rw [if_pos hbc] at h2
            rw [if_pos (hab.trans hbc)]
            exact ih bs cs h1 h2
          · rw [if_neg hbc] at h2
            have hlt : b.toNat < c.toNat := of_decide_eq_true h2
            have hac : a.toNat < c.toNat := hab ▸ hlt
            rw [if_neg (Nat.ne_of_lt hac)]
            exact decide_eq_true hac
        · rw [if_neg hab] at h1
          have hlt : a.toNat < b.toNat := of_decide_eq_true h1
          by_cases hbc : b.toNat = c.toNat
          · have hac : a.toNat < c.toNat := hbc ▸ hlt
            rw [if_neg (Nat.ne_of_lt hac)]
            exact decide_eq_true hac
          · rw [if_neg hbc] at h2
            have hlt2 : b.toNat < c.toNat := of_decide_eq_true h2
            have hac : a.toNat < c.toNat := Nat.lt_trans hlt hlt2
            rw [if_neg (Nat.ne_of_lt hac)]
            exact decide_eq_true hac

theorem strle_total : ∀ s t : String, strle s t ∨ strle t s :=
  fun s t => lexLe_total s.data t.data

theorem strle_trans : ∀ s t u : String, strle s t → strle t u → strle s u :=
  fun s t u => lexLe_trans s.data t.data u.data

theorem fetch_base_url (fz : StreamFuzz) (p m : String) (r : FetchResult) :
    (fz.fetch p m r).fuzz.base_url = fz.base_url := by
  cases r with
  | response s =>
    show (if s ∈ fz.valid_status_codes then _ else _ : FetchOut).fuzz.base_url = _
    split <;> rfl
  | error e => rfl

theorem fetch_valid_codes (fz : StreamFuzz) (p m : String) (r : FetchResult) :
    (fz.fetch p m r).fuzz.valid_status_codes = fz.valid_status_codes := by
  cases r with
  | response s =>
    show (if s ∈ fz.valid_status_codes then _ else _ : FetchOut).fuzz.valid_status_codes = _
    split <;> rfl
  | error e => rfl

theorem fetch_methods (fz : StreamFuzz) (p m : String) (r : FetchResult) :
    (fz.fetch p m r).fuzz.methods = fz.methods := by
  cases r with
  | response s =>
    show (if s ∈ fz.valid_status_codes then _ else _ : FetchOut).fuzz.methods = _
    split <;> rfl
  | error e => rfl

theorem fetch_request (fz : StreamFuzz) (p m : String) (r : FetchResult) :
    (fz.fetch p m r).request = (m, fz.url p) := by
  cases r with
  | response s =>
    show (if s ∈ fz.valid_status_codes then _ else _ : FetchOut).request = _
    split <;> rfl
  | error e => rfl

theorem mem_fetch_found_response (fz : StreamFuzz) (p m u : String) (s : Int) :
    u ∈ (fz.fetch p m (.response s)).fuzz.found_endpoints ↔
      u ∈ fz.found_endpoints ∨ (s ∈ fz.valid_status_codes ∧ u = fz.url p) := by
  by_cases h : s ∈ fz.valid_status_codes
  · show u ∈ (if s ∈ fz.valid_status_codes then _ else _ : FetchOut).fuzz.found_endpoints ↔ _
    rw [if_pos h]
    show u ∈ fz.found_endpoints.insert (fz.url p) ↔ _
    · simp only [List.mem_insert_iff]
      constructor
      · rintro (h1 | h1)
        · exact Or.inr ⟨h, h1⟩
        · exact Or.inl h1
      · rintro (h1 | ⟨_, h1⟩)
        · exact Or.inr h1
        · exact Or.inl h1
  · show u ∈ (if s ∈ fz.valid_status_codes then _ else _ : FetchOut).fuzz.found_endpoints ↔ _
    rw [if_neg h]
    constructor
    · exact Or.inl
    · rintro (h1 | ⟨h2, _⟩)
      · exact h1
      · exact absurd h2 h

theorem mem_fetch_found_error (fz : StreamFuzz) (p m u e : String) :
    u ∈ (fz.fetch p m (.error e)).fuzz.found_endpoints ↔
      u ∈ fz.found_endpoints :=
  Iff.rfl

theorem url_congr {fz fz2 : StreamFuzz} (h : fz2.base_url = fz.base_url)
    (p : String) : fz2.url p = fz.url p := by
  simp [StreamFuzz.url, h]

theorem itemDiscovers_congr {fz fz2 : StreamFuzz}
    (h1 : fz2.valid_status_codes = fz.valid_status_codes)
    (h2 : fz2.base_url = fz.base_url)
    (oracle : String → String → FetchResult) (it : String × String)
    (u : String) :
    itemDiscovers fz2 oracle it u ↔ itemDiscovers fz oracle it u := by
  unfold itemDiscovers
  cases oracle it.1 it.2 with
  | response s => rw [h1, url_congr h2]
  | error e => rfl

theorem processStep_base (oracle : String → String → FetchResult)
    (acc : BatchOut) (it : String × String) :
    (processStep oracle acc it).fuzz.base_url = acc.fuzz.base_url :=
  fetch_base_url ..

theorem processStep_codes (oracle : String → String → FetchResult)
    (acc : BatchOut) (it : String × String) :
    (processStep oracle acc it).fuzz.valid_status_codes
      = acc.fuzz.valid_status_codes :=
  fetch_valid_codes ..

theorem foldl_requests (oracle : String → String → FetchResult) :
    ∀ (items : List (String × String)) (acc : BatchOut),
    (items.foldl (processStep oracle) acc).requests
      = acc.requests ++ items.map (fun it => (it.2, acc.fuzz.url it.1)) := by
  intro items
  induction items with
  | nil => intro acc; simp
  | cons it items ih =>
    intro acc
    rw [List.foldl_cons, ih]
    have hreq : (processStep oracle acc it).requests
        = acc.requests ++ [(it.2, acc.fuzz.url it.1)] := by
      show acc.requests ++ [(acc.fuzz.fetch it.1 it.2 (oracle it.1 it.2)).request] = _
      rw [fetch_request]
    have hmap : items.map (fun x => (x.2, (processStep oracle acc it).fuzz.url x.1))
        = items.map (fun x => (x.2, acc.fuzz.url x.1)) := by
      apply List.map_congr_left
      intro x _
      rw [url_congr (processStep_base oracle acc it)]
    rw [hreq, hmap, List.map_cons, List.append_assoc]
    rfl

theorem mem_foldl_found (oracle : String → String → FetchResult) :
    ∀ (items : List (String × String)) (acc : BatchOut) (u : String),
    u ∈ (items.foldl (processStep oracle) acc).fuzz.found_endpoints ↔
      u ∈ acc.fuzz.found_endpoints ∨
        ∃ it ∈ items, itemDiscovers acc.fuzz oracle it u := by
  intro items
  induction items with
  | nil => intro acc u; simp
  | cons it items ih =>
    intro acc u
    rw [List.foldl_cons, ih]
    have hstep : u ∈ (processStep oracle acc it).fuzz.found_endpoints ↔
        u ∈ acc.fuzz.found_endpoints ∨ itemDiscovers acc.fuzz oracle it u := by
      show u ∈ (acc.fuzz.fetch it.1 it.2 (oracle it.1 it.2)).fuzz.found_endpoints ↔ _
      unfold itemDiscovers
      cases horacle : oracle it.1 it.2 with
      | response s => rw [mem_fetch_found_response]
      | error e => rw [mem_fetch_found_error]; simp
    have hcongr : ∀ x ∈ items,
        (itemDiscovers (processStep oracle acc it).fuzz oracle x u ↔
          itemDiscovers acc.fuzz oracle x u) := fun x _ =>
      itemDiscovers_congr (processStep_codes oracle acc it)
        (processStep_base oracle acc it) oracle x u
    rw [List.exists_mem_cons_iff]
    constructor
    · rintro (h | ⟨x, hx, hdisc⟩)
      · rcases hstep.mp h with h1 | h1
        · exact Or.inl h1
        · exact Or.inr (Or.inl h1)
      · exact Or.inr (Or.inr ⟨x, hx, (hcongr x hx).mp hdisc⟩)
    · rintro (h | h | ⟨x, hx, hdisc⟩)
      · exact Or.inl (hstep.mpr (Or.inl h))
      · exact Or.inl (hstep.mpr (Or.inr h))
      · exact Or.inr ⟨x, hx, (hcongr x hx).mpr hdisc⟩

theorem fetch_found_mono (fz : StreamFuzz) (p m u : String) (r : FetchResult)
    (h : u ∈ fz.found_endpoints) :
    u ∈ (fz.fetch p m r).fuzz.found_endpoints := by
  cases r with
  | response s => exact (mem_fetch_found_response fz p m u s).mpr (Or.inl h)
  | error e => exact (mem_fetch_found_error fz p m u e).mpr h

theorem runningCount_append (l r : List TaskPhase) :
    runningCount (l ++ r) = runningCount l + runningCount r := by
  induction l with
  | nil => simp [runningCount]
  | cons t ts ih =>
    cases t with
    | waiting => simp [runningCount, ih]
    | running => simp [runningCount, ih]; omega
    | done => simp [runningCount, ih]

theorem runningCount_replicate (M : Nat) :
    runningCount (List.replicate M TaskPhase.waiting) = 0 := by
  induction M with
  | zero => rfl
  | succ n ih => simp [List.replicate, runningCount, ih]

theorem dispatchStep_bound {N : Nat} {ts ts2 : List TaskPhase}
    (h : DispatchStep N ts ts2) (hb : runningCount ts ≤ N) :
    runningCount ts2 ≤ N := by
  cases h with
  | acquire l r hlt =>
    rw [runningCount_append] at hlt ⊢
    simp only [runningCount] at hlt ⊢
    omega
  | release l r =>
    rw [runningCount_append] at hb ⊢
    simp only [runningCount] at hb ⊢
    omega

theorem reachable_bound (N M : Nat) (ts : List TaskPhase)
    (h : DispatchReachable N M ts) : runningCount ts ≤ N := by
  unfold DispatchReachable at h
  induction h with
  | refl => simp [runningCount_replicate]
  | tail _ hstep ih => exact dispatchStep_bound hstep ih

theorem except_bind_error {α β : Type} (e : String)
    (f : α → Except String β) :
    (Except.error e >>= f : Except String β) = Except.error e := rfl

theorem except_bind_ok {α β : Type} (a : α) (f : α → Except String β) :
    (Except.ok a >>= f : Except String β) = f a := rfl

theorem menuStep_choice2
    (parseJson : String → Except String (List (String × String)))
    (cfg : MenuConfig) (inp : ConfigInputs) :
    menuStep parseJson cfg "2" inp
      = Except.map (fun c => (c, none)) (configStep parseJson cfg inp) := by
  unfold menuStep
  rw [if_neg (by decide : ¬ (("2" : String) = "1")), if_pos rfl]

theorem configStep_error_of_fail
    (parseJson : String → Except String (List (String × String)))
    (cfg : MenuConfig) (inp : ConfigInputs)
    (hfail : (pyStrip inp.headers_input ≠ ""
          ∧ ∃ e, parseJson (pyStrip inp.headers_input) = Except.error e)
      ∨ (pyStrip inp.cookies_input ≠ ""
          ∧ ∃ e, parseJson (pyStrip inp.cookies_input) = Except.error e)
      ∨ (pyStrip inp.status_codes_input ≠ ""
          ∧ parseStatusCodes (pyStrip inp.status_codes_input) = none)) :
    ∃ msg, configStep parseJson cfg inp = Except.error msg := by
  unfold configStep
  by_cases hh : pyStrip inp.headers_input = ""
  · rw [if_pos hh]
    simp only [pure_bind]
    by_cases hc : pyStrip inp.cookies_input = ""
    · rw [if_pos hc]
      rcases hfail with ⟨hne, _⟩ | ⟨hne, _⟩ | ⟨hsne, hsnone⟩
      · exact absurd hh hne
      · exact absurd hc hne
      · rw [if_neg hsne, hsnone]
        exact ⟨"ValueError: invalid literal for int", rfl⟩
    · rw [if_neg hc]
      cases hcp : parseJson (pyStrip inp.cookies_input) with
      | error e2 =>
        exact ⟨e2, rfl⟩
      | ok cv =>
        rw [except_bind_ok]
        rcases hfail with ⟨hne, _⟩ | ⟨_, e2, he⟩ | ⟨hsne, hsnone⟩
        · exact absurd hh hne
        · rw [he] at hcp; cases hcp
        · rw [if_neg hsne, hsnone]
          exact ⟨"ValueError: invalid literal for int", rfl⟩
  · rw [if_neg hh]
    cases hhp : parseJson (pyStrip inp.headers_input) with
    | error e1 =>
      exact ⟨e1, rfl⟩
    | ok hv =>
      rw [except_bind_ok]
      beta_reduce
      by_cases hc : pyStrip inp.cookies_input = ""
      · rw [if_pos hc]
        simp only [pure_bind]
        rcases hfail with ⟨_, e1, he⟩ | ⟨hne, _⟩ | ⟨hsne, hsnone⟩
        · rw [he] at hhp; cases hhp
        · exact absurd hc hne
        · rw [if_neg hsne, hsnone]
          exact ⟨"ValueError: invalid literal for int", rfl⟩
      · rw [if_neg hc]
        cases hcp : parseJson (pyStrip inp.cookies_input) with
        | error e2 =>
          exact ⟨e2, rfl⟩
        | ok cv =>
          rw [except_bind_ok]
          beta_reduce
          rcases hfail with ⟨_, e1, he⟩ | ⟨_, e2, he⟩ | ⟨hsne, hsnone⟩
          · rw [he] at hhp; cases hhp
          · rw [he] at hcp; cases hcp
          · rw [if_neg hsne, hsnone]
            exact ⟨"ValueError: invalid literal for int", rfl⟩

theorem count_eq_one_of_nodup_mem {α : Type} [BEq α] [LawfulBEq α] {a : α}
    {l : List α} (hnd : l.Nodup) (h : a ∈ l) : l.count a = 1 := by
  induction l with
  | nil => cases h
  | cons b l ih =>
    rw [List.count_cons]
    rcases List.mem_cons.mp h with rfl | hmem
    · rw [List.count_eq_zero.mpr (List.nodup_cons.mp hnd).1]
      simp
    · rw [ih (List.nodup_cons.mp hnd).2 hmem]
      have hne : a ≠ b := by
        intro he
        exact (List.nodup_cons.mp hnd).1 (he ▸ hmem)
      simp [Ne.symm hne]

theorem rstripSlash_append_slash (s : String) :
    rstripSlash (s ++ "/") = rstripSlash s := by
  unfold rstripSlash
  rw [String.data_append]
  show String.mk (((s.data ++ ['/']).reverse.dropWhile fun c => c == '/').reverse) = _
  rw [List.reverse_append]
  rfl

theorem lstripSlash_slash_append (p : String) :
    lstripSlash ("/" ++ p) = lstripSlash p := by
  unfold lstripSlash
  rw [String.data_append]
  rfl

/-! The claims. -/

/-- Claim C2: for every batch of work items, at no instant during dispatch
are more than N Request Executor invocations concurrently in flight, where
N is the fixed configured ceiling with default value 100.  In every
dispatcher state reachable from the start of an M-item batch under the
semaphore of capacity MAX_CONCURRENT_REQUESTS, at most that many tasks
are inside the semaphore-guarded request section, and the ceiling is
100. -/
theorem claim_C2_admission_bound (M : Nat) (ts : List TaskPhase)
    (h : DispatchReachable MAX_CONCURRENT_REQUESTS M ts) :
    runningCount ts ≤ MAX_CONCURRENT_REQUESTS ∧ MAX_CONCURRENT_REQUESTS = 100 :=
  ⟨reachable_bound _ M ts h, rfl⟩

theorem claim_C2_witness :
    runningCount [TaskPhase.running, TaskPhase.waiting] ≤ MAX_CONCURRENT_REQUESTS
      ∧ MAX_CONCURRENT_REQUESTS = 100 :=
  claim_C2_admission_bound 2 [TaskPhase.running, TaskPhase.waiting]
    (Relation.ReflTransGen.single
      (DispatchStep.acquire [] [TaskPhase.waiting] (by decide)))

/-- Claim C5: a completed response's URL is added to the discovered set if
and only if its status code is in the acceptance policy (membership
afterwards is membership before, or else accepted-status and the item's
URL), and under the default policy 404 is not accepted while 401 is. -/
theorem claim_C5_acceptance_filter (fz : StreamFuzz) (path method : String)
    (status : Int) :
    (∀ u, u ∈ (fz.fetch path method (.response status)).fuzz.found_endpoints ↔
        (u ∈ fz.found_endpoints ∨
          (status ∈ fz.valid_status_codes ∧ u = fz.url path)))
    ∧ (404 : Int) ∉ VALID_STATUS_CODES ∧ (401 : Int) ∈ VALID_STATUS_CODES :=
  ⟨fun u => mem_fetch_found_response fz path method u status,
    by decide, by decide⟩

/-- Claim C10: a completed response's numeric status code is returned to
the caller whether or not it is accepted (so e.g. a 404 still yields its
status), and a request that raises returns no status (None). -/
theorem claim_C10_fetch_status (fz : StreamFuzz) (path method : String)
    (status : Int) (e : String) :
    (fz.fetch path method (.response status)).status = some status
    ∧ (fz.fetch path method (.error e)).status = none := by
  constructor
  · show (if status ∈ fz.valid_status_codes then _ else _ : FetchOut).status = _
    split <;> rfl
  · rfl

/-- Claim C8: the request URL is the target stripped of trailing slashes,
one slash, then the candidate stripped of leading slashes; consequently a
trailing slash on the target or a leading slash on the candidate is
irrelevant, and the four combinations of http://t, http://t/ with admin,
/admin all give http://t/admin. -/
theorem claim_C8_url_normalization (base path wl out : String)
    (hd ck : List (String × String)) (ms : List String) (vc : List Int) :
    ((StreamFuzz.init base wl out hd ck ms vc).url path
        = rstripSlash base ++ "/" ++ lstripSlash path)
    ∧ ((StreamFuzz.init (base ++ "/") wl out hd ck ms vc).url path
        = (StreamFuzz.init base wl out hd ck ms vc).url path)
    ∧ ((StreamFuzz.init base wl out hd ck ms vc).url ("/" ++ path)
        = (StreamFuzz.init base wl out hd ck ms vc).url path)
    ∧ (StreamFuzz.init "http://t" wl out hd ck ms vc).url "admin" = "http://t/admin"
    ∧ (StreamFuzz.init "http://t/" wl out hd ck ms vc).url "admin" = "http://t/admin"
    ∧ (StreamFuzz.init "http://t" wl out hd ck ms vc).url "/admin" = "http://t/admin"
    ∧ (StreamFuzz.init "http://t/" wl out hd ck ms vc).url "/admin" = "http://t/admin" := by
  refine ⟨rfl, ?_, ?_, ?_, ?_, ?_, ?_⟩
  · show rstripSlash (base ++ "/") ++ "/" ++ lstripSlash path = _
    rw [rstripSlash_append_slash]
    rfl
  · show rstripSlash base ++ "/" ++ lstripSlash ("/" ++ path) = _
    rw [lstripSlash_slash_append]
    rfl
  · show rstripSlash "http://t" ++ "/" ++ lstripSlash "admin" = "http://t/admin"
    decide
  · show rstripSlash "http://t/" ++ "/" ++ lstripSlash "admin" = "http://t/admin"
    decide
  · show rstripSlash "http://t" ++ "/" ++ lstripSlash "/admin" = "http://t/admin"
    decide
  · show rstripSlash "http://t/" ++ "/" ++ lstripSlash "/admin" = "http://t/admin"
    decide

/-- Claim C1: the dispatcher builds the work list as the Cartesian product
Candidate × Method with each pair scheduled exactly once (no duplicates,
no omissions), and by the time it returns every scheduled item has been
executed: the batch's request trace contains exactly one performed request
per work-list item, in particular none is omitted and none repeated. -/
theorem claim_C1_dispatch_completeness (fz : StreamFuzz)
    (oracle : String → String → FetchResult) (paths : List String)
    (hp : paths.Nodup) (hm : fz.methods.Nodup) :
    (worklist paths fz.methods).Nodup
    ∧ (∀ p m, (p, m) ∈ worklist paths fz.methods ↔ p ∈ paths ∧ m ∈ fz.methods)
    ∧ (∀ p m, p ∈ paths → m ∈ fz.methods →
        (worklist paths fz.methods).count (p, m) = 1)
    ∧ (fz.processPaths oracle paths).requests
        = (worklist paths fz.methods).map (fun it => (it.2, fz.url it.1)) := by
  have hnd : (worklist paths fz.methods).Nodup := hp.product hm
  refine ⟨hnd, ?_, ?_, ?_⟩
  · intro p m; exact List.pair_mem_product
  · intro p m hpp hmm
    exact count_eq_one_of_nodup_mem hnd (List.pair_mem_product.mpr ⟨hpp, hmm⟩)
  · unfold StreamFuzz.processPaths
    rw [foldl_requests]
    rfl

theorem claim_C1_witness :
    (worklist ["a"] ["HEAD"]).count ("a", "HEAD") = 1
    ∧ ((StreamFuzz.init "http://t" "w" "o" [] [] ["HEAD"]
          VALID_STATUS_CODES).processPaths
        (fun _ _ => FetchResult.response 200) ["a"]).requests
      = (worklist ["a"] ["HEAD"]).map (fun it => (it.2,
          (StreamFuzz.init "http://t" "w" "o" [] [] ["HEAD"]
            VALID_STATUS_CODES).url it.1)) :=
  have h := claim_C1_dispatch_completeness
    (StreamFuzz.init "http://t" "w" "o" [] [] ["HEAD"] VALID_STATUS_CODES)
    (fun _ _ => FetchResult.response 200) ["a"] (by decide) (by decide)
  ⟨h.2.2.1 "a" "HEAD" (by decide) (by decide), h.2.2.2⟩

/-- Claim C3 counterexample: the claim says the loaded candidate set is the
file's non-blank lines unioned with the built-ins, but _load_wordlist
strips each line before the blank test, so a line carrying surrounding
whitespace is loaded in stripped form: for the one-line file " x " the
loaded set and the claimed set differ. -/
theorem claim_C3_counterexample :
    ¬ ((loadWordlist (some [" x "])).toFinset
        = specCandidateSet [" x "] COMMON_PATHS) := by
  intro h
  have hx : "x" ∈ (loadWordlist (some [" x "])).toFinset := by decide
  rw [h] at hx
  revert hx
  decide

/-- Claim C3 (amended): the loaded candidate set equals the file's lines
stripped of surrounding whitespace, blanks dropped, unioned with the
built-in list and deduplicated; in particular for a candidate file
containing x, a blank, admin and built-ins admin, login the result is
exactly the set of x, admin and login. -/
theorem claim_C3_candidate_merge (lines builtins : List String) :
    ((loadWordlistWith (some lines) builtins).toFinset
      = ((lines.map (fun l => pyStrip l)).filter (fun l => l ≠ "")).toFinset
          ∪ builtins.toFinset)
    ∧ (loadWordlistWith (some ["x", "", "admin"]) ["admin", "login"]).toFinset
        = ({"x", "admin", "login"} : Finset String) := by
  constructor
  · unfold loadWordlistWith
    ext a
    simp [List.mem_dedup]
  · decide

/-- Claim C6: with an empty discovered set, _save_results warns and leaves
the output file untouched; with a non-empty set it overwrites the file
with exactly the discovered URLs, one per line, newline-terminated and
lexicographically sorted (sortStrings is a sorted permutation of the
set), and on the two-element example set it writes exactly the claimed
bytes. -/
theorem claim_C6_result_sink (found : List String) (prior : Option String) :
    (saveResults [] prior = (prior, [LogLine.warning "No endpoints discovered."]))
    ∧ (found ≠ [] → (saveResults found prior).1
        = some (String.join ((sortStrings found).map (fun e => e ++ "\n"))))
    ∧ (sortStrings found).Sorted strle
    ∧ (sortStrings found).Perm found
    ∧ (saveResults ["http://t/b", "http://t/a"] prior).1
        = some "http://t/a\nhttp://t/b\n" := by
  refine ⟨rfl, ?_, ?_, ?_, ?_⟩
  · intro h
    simp [saveResults, h]
  · exact @List.sorted_insertionSort String strle _ ⟨strle_total⟩ ⟨strle_trans⟩ found
  · exact List.perm_insertionSort strle found
  · show (saveResults ["http://t/b", "http://t/a"] prior).1
        = some "http://t/a\nhttp://t/b\n"
    have : saveResults ["http://t/b", "http://t/a"] prior
        = (some "http://t/a\nhttp://t/b\n", [LogLine.info "Results saved."]) := by
      unfold saveResults
      rw [if_neg (by decide : ¬ (["http://t/b", "http://t/a"] = ([] : List String)))]
      decide
    rw [this]

theorem claim_C6_witness :
    (["u"] : List String) ≠ []
    ∧ (saveResults ["u"] none).1
        = some (String.join ((sortStrings ["u"]).map (fun e => e ++ "\n"))) :=
  ⟨by decide, (claim_C6_result_sink ["u"] none).2.1 (by decide)⟩

/-- Claim C7: the discovered set is idempotent and never shrinks: adding an
already-present URL changes nothing, a second successful probe of the same
URL contributes no second member, membership stays duplicate-free, and no
fetch nor a whole batch ever removes a member. -/
theorem claim_C7_set_invariant (fz : StreamFuzz) (path method : String)
    (r : FetchResult) (oracle : String → String → FetchResult)
    (paths : List String) (u : String) :
    (fz.url path ∈ fz.found_endpoints →
      (fz.fetch path method r).fuzz.found_endpoints = fz.found_endpoints)
    ∧ (((fz.fetch path method r).fuzz.fetch path method r).fuzz.found_endpoints
        = (fz.fetch path method r).fuzz.found_endpoints)
    ∧ (fz.found_endpoints.Nodup →
        (fz.fetch path method r).fuzz.found_endpoints.Nodup)
    ∧ (u ∈ fz.found_endpoints → u ∈ (fz.fetch path method r).fuzz.found_endpoints)
    ∧ (u ∈ fz.found_endpoints →
        u ∈ (fz.processPaths oracle paths).fuzz.found_endpoints) := by
  have hfound : ∀ (g : StreamFuzz) (s : Int), s ∈ g.valid_status_codes →
      (g.fetch path method (.response s)).fuzz.found_endpoints
        = g.found_endpoints.insert (g.url path) := by
    intro g s hs
    show (if s ∈ g.valid_status_codes then _ else _ : FetchOut).fuzz.found_endpoints = _
    rw [if_pos hs]
    rfl
  have hfound2 : ∀ (g : StreamFuzz) (s : Int), s ∉ g.valid_status_codes →
      (g.fetch path method (.response s)).fuzz.found_endpoints
        = g.found_endpoints := by
    intro g s hs
    show (if s ∈ g.valid_status_codes then _ else _ : FetchOut).fuzz.found_endpoints = _
    rw [if_neg hs]
  refine ⟨?_, ?_, ?_, ?_, ?_⟩
  · intro hmem
    cases r with
    | response s =>
      by_cases hs : s ∈ fz.valid_status_codes
      · rw [hfound fz s hs]
        exact List.insert_of_mem hmem
      · exact hfound2 fz s hs
    | error e => rfl
  · cases r with
    | response s =>
      by_cases hs : s ∈ fz.valid_status_codes
      · have hs2 : s ∈ (fz.fetch path method (.response s)).fuzz.valid_status_codes := by
          rw [fetch_valid_codes]; exact hs
        rw [hfound _ s hs2,
          url_congr (fetch_base_url fz path method (.response s)), hfound fz s hs]
        exact List.insert_of_mem (List.mem_insert_self _ _)
      · have hs2 : s ∉ (fz.fetch path method (.response s)).fuzz.valid_status_codes := by
          rw [fetch_valid_codes]; exact hs
        rw [hfound2 _ s hs2]
    | error e => rfl
  · intro hnd
    cases r with
    | response s =>
      by_cases hs : s ∈ fz.valid_status_codes
      · rw [hfound fz s hs]
        exact hnd.insert
      · rw [hfound2 fz s hs]
        exact hnd
    | error e => exact hnd
  · exact fetch_found_mono fz path method u r
  · intro hmem
    exact (mem_foldl_found oracle (worklist paths fz.methods) ⟨fz, [], []⟩ u).mpr
      (Or.inl hmem)

theorem claim_C7_witness :
    ((sampleFuzz.fetch "a" "HEAD" (.response 200)).fuzz.found_endpoints
      = sampleFuzz.found_endpoints)
    ∧ (((sampleFuzz.fetch "a" "HEAD" (.response 200)).fuzz.fetch "a" "HEAD"
          (.response 200)).fuzz.found_endpoints
        = (sampleFuzz.fetch "a" "HEAD" (.response 200)).fuzz.found_endpoints)
    ∧ (sampleFuzz.fetch "a" "HEAD" (.response 200)).fuzz.found_endpoints.Nodup
    ∧ "http://t/a" ∈ (sampleFuzz.fetch "a" "HEAD" (.response 200)).fuzz.found_endpoints
    ∧ "http://t/a" ∈ (sampleFuzz.processPaths (fun _ _ => .response 200)
        ["b"]).fuzz.found_endpoints :=
  have h := claim_C7_set_invariant sampleFuzz "a" "HEAD" (.response 200)
    (fun _ _ => .response 200) ["b"] "http://t/a"
  ⟨h.1 (by decide), h.2.1, h.2.2.1 (by decide), h.2.2.2.1 (by decide),
    h.2.2.2.2 (by decide)⟩

/-- Claim C4: a fetch whose request raises logs the error, adds nothing to
the discovered set and returns normally (status None); and forcing any
Bool-selected subset of work items to raise leaves the discovery outcome of
every other item unchanged (final membership is exactly the non-failed
items' discoveries) while the batch still completes, performing the same
full request trace. -/
theorem claim_C4_failure_isolation (fz : StreamFuzz) (path method e : String)
    (oracle : String → String → FetchResult) (F : String × String → Bool)
    (paths : List String) :
    ((fz.fetch path method (.error e)).fuzz.found_endpoints = fz.found_endpoints
      ∧ (fz.fetch path method (.error e)).status = none
      ∧ (fz.fetch path method (.error e)).log
          = [LogLine.error ("Error fetching " ++ fz.url path ++ ": " ++ e)])
    ∧ (∀ u, u ∈ (fz.processPaths
          (fun p m => if F (p, m) then FetchResult.error e else oracle p m)
          paths).fuzz.found_endpoints ↔
        (u ∈ fz.found_endpoints ∨ ∃ it ∈ worklist paths fz.methods,
          F it = false ∧ itemDiscovers fz oracle it u))
    ∧ ((fz.processPaths
          (fun p m => if F (p, m) then FetchResult.error e else oracle p m)
          paths).requests = (fz.processPaths oracle paths).requests) := by
  refine ⟨⟨rfl, rfl, rfl⟩, ?_, ?_⟩
  · intro u
    unfold StreamFuzz.processPaths
    rw [mem_foldl_found]
    have hitem : ∀ it : String × String,
        itemDiscovers fz (fun p m => if F (p, m) then FetchResult.error e
            else oracle p m) it u
          ↔ (F it = false ∧ itemDiscovers fz oracle it u) := by
      intro it
      unfold itemDiscovers
      beta_reduce
      by_cases hF : F (it.1, it.2) = true
      · rw [if_pos hF]
        have hF2 : ¬ (F it = false) := by
          intro h0
          rw [show F it = F (it.1, it.2) from rfl, hF] at h0
          cases h0
        exact iff_of_false (fun h0 => h0) (fun h0 => hF2 h0.1)
      · rw [if_neg hF]
        have hF2 : F it = false := (Bool.not_eq_true _).mp hF
        simp [hF2]
    constructor
    · rintro (h | ⟨it, hit, hdisc⟩)
      · exact Or.inl h
      · exact Or.inr ⟨it, hit, (hitem it).mp hdisc⟩
    · rintro (h | ⟨it, hit, hdisc⟩)
      · exact Or.inl h
      · exact Or.inr ⟨it, hit, (hitem it).mpr hdisc⟩
  · unfold StreamFuzz.processPaths
    rw [foldl_requests, foldl_requests]

/-- Claim C9: for every malformed structured headers or cookies input
(json.loads raising) and every non-integer status-code list entered at
configuration time — whichever of the three parses the configure branch
runs fails — the configuration step fails without starting a run: the menu
iteration dies with the raised error, yielding no new configuration state
at all, so in particular the prior value of the affected setting is not
carried into any surviving configuration and no fuzzer is dispatched. -/
theorem claim_C9_config_error
    (parseJson : String → Except String (List (String × String)))
    (cfg : MenuConfig) (inp : ConfigInputs)
    (hfail : (pyStrip inp.headers_input ≠ ""
          ∧ ∃ e, parseJson (pyStrip inp.headers_input) = Except.error e)
      ∨ (pyStrip inp.cookies_input ≠ ""
          ∧ ∃ e, parseJson (pyStrip inp.cookies_input) = Except.error e)
      ∨ (pyStrip inp.status_codes_input ≠ ""
          ∧ parseStatusCodes (pyStrip inp.status_codes_input) = none)) :
    ∃ msg, menuStep parseJson cfg "2" inp = Except.error msg
      ∧ ∀ c run, menuStep parseJson cfg "2" inp ≠ Except.ok (c, run) := by
  obtain ⟨msg, hcfg⟩ := configStep_error_of_fail parseJson cfg inp hfail
  have hmenu : menuStep parseJson cfg "2" inp = Except.error msg := by
    rw [menuStep_choice2, hcfg]
    rfl
  exact ⟨msg, hmenu, fun c run hok => by rw [hmenu] at hok; cases hok⟩

theorem claim_C9_witness :
    (∃ msg, menuStep (fun _ => Except.error "Expecting value")
        initialMenuConfig "2" ⟨"", "", "", "", "notjson", "", ""⟩
        = Except.error msg
      ∧ ∀ c run, menuStep (fun _ => Except.error "Expecting value")
          initialMenuConfig "2" ⟨"", "", "", "", "notjson", "", ""⟩
          ≠ Except.ok (c, run))
    ∧ (∃ msg, menuStep (fun _ => Except.ok []) initialMenuConfig "2"
        ⟨"", "", "", "", "", "", "2oo"⟩ = Except.error msg
      ∧ ∀ c run, menuStep (fun _ => Except.ok []) initialMenuConfig "2"
          ⟨"", "", "", "", "", "", "2oo"⟩ ≠ Except.ok (c, run)) :=
  ⟨claim_C9_config_error (fun _ => Except.error "Expecting value")
      initialMenuConfig ⟨"", "", "", "", "notjson", "", ""⟩
      (Or.inr (Or.inl ⟨by decide, "Expecting value", rfl⟩)),
    claim_C9_config_error (fun _ => Except.ok []) initialMenuConfig
      ⟨"", "", "", "", "", "", "2oo"⟩
      (Or.inr (Or.inr ⟨by decide, by decide⟩))⟩

end StreamFuzzModel
